import Mathlib

/-!
# BackoffHelperRK: a retained-memory failure backoff counter

Shallow embedding of `src/BackoffHelperRK.h` and `src/BackoffHelperRK.cpp`.

* Machine integers are natural numbers; the places where the width matters carry an explicit
  modulus: `tries++` on a `uint16_t` and `backoffTableNumElem - 1` on a `size_t`.
* Retained memory is a map from addresses to `BackoffHelperRetained` structures, and an object
  holds the address of its structure (`retainedData`), as the C++ object holds a pointer.
* The table pointer of an object is modelled by the array it points to; reading past the end of
  that array is undefined behaviour in C++ and is `none` here.
-/

namespace BackoffHelperRK

/-! ## Data model -/

/-- The structure stored in retained memory (8 bytes): `uint32_t magic`, `uint8_t version`,
`uint8_t reserved`, `uint16_t tries`. -/
structure BackoffHelperRetained where
  magic : Nat
  version : Nat
  reserved : Nat
  tries : Nat
deriving DecidableEq, Repr

/-- Retained memory: the `BackoffHelperRetained` structure found at each address. -/
abbrev RetainedMem := Nat → BackoffHelperRetained

/-- Random magic bytes used to see if the retained memory is valid. -/
def BACKOFFHELPER_RETAINED_MAGIC : Nat := 0x5d7ec708

/-- Version number of the retained data structure. -/
def BACKOFFHELPER_RETAINED_VERSION : Nat := 1

/-- Backoff times in minutes, used when the default constructor is used. -/
def standardBackoffTable : List Nat := [5, 10, 15, 20, 30, 60]

/-- Number of values of a `size_t` (32 bits on the ARM Cortex-M targets of the library). -/
def SIZE_T_MODULUS : Nat := 4294967296

/-- Number of values of a `uint16_t`. -/
def UINT16_MODULUS : Nat := 65536

/-- The class `BackoffHelperClass`: the table pointer (as the array of `uint8_t` minute values it
points to), the number of elements the caller announced, and the address of the retained
structure. -/
structure BackoffHelperClass where
  backoffTable : List Nat
  backoffTableNumElem : Nat
  retainedData : Nat
deriving DecidableEq, Repr

/-- The test of `validate()`: the magic bytes and the version are the expected ones. -/
def BackoffHelperRetained.isValid (r : BackoffHelperRetained) : Prop :=
  r.magic = BACKOFFHELPER_RETAINED_MAGIC ∧ r.version = BACKOFFHELPER_RETAINED_VERSION

instance (r : BackoffHelperRetained) : Decidable r.isValid :=
  inferInstanceAs (Decidable (r.magic = BACKOFFHELPER_RETAINED_MAGIC ∧
    r.version = BACKOFFHELPER_RETAINED_VERSION))

/-- The index read by `getFailureSleepTimeSecs()`: `tries` when `tries < backoffTableNumElem`,
and `backoffTableNumElem - 1` (a `size_t` subtraction) otherwise. -/
def tableIndex (tries backoffTableNumElem : Nat) : Nat :=
  if tries < backoffTableNumElem then tries
  else (backoffTableNumElem + SIZE_T_MODULUS - 1) % SIZE_T_MODULUS

namespace BackoffHelperClass

/-! ## Operations -/

/-- Constructor `BackoffHelperClass(retainedData)`: the standard table, its `sizeof`, and the
pointer. It does not read or write retained memory. -/
def new (retainedData : Nat) : BackoffHelperClass :=
  { backoffTable := standardBackoffTable
    backoffTableNumElem := standardBackoffTable.length
    retainedData := retainedData }

/-- Method `withTable(backoffTable, backoffTableNumElem)`: stores both arguments. -/
def withTable (self : BackoffHelperClass) (backoffTable : List Nat) (backoffTableNumElem : Nat) :
    BackoffHelperClass :=
  { self with backoffTable := backoffTable, backoffTableNumElem := backoffTableNumElem }

/-- Method `withDefaultTable()`: stores the standard table and its `sizeof`. -/
def withDefaultTable (self : BackoffHelperClass) : BackoffHelperClass :=
  { self with backoffTable := standardBackoffTable
              backoffTableNumElem := standardBackoffTable.length }

/-- Method `validate()`: when the magic bytes or the version differ from the expected constants,
writes the constants and clears `tries` and `reserved`. -/
def validate (self : BackoffHelperClass) (mem : RetainedMem) : RetainedMem :=
  if (mem self.retainedData).magic ≠ BACKOFFHELPER_RETAINED_MAGIC ∨
      (mem self.retainedData).version ≠ BACKOFFHELPER_RETAINED_VERSION then
    Function.update mem self.retainedData
      { magic := BACKOFFHELPER_RETAINED_MAGIC
        version := BACKOFFHELPER_RETAINED_VERSION
        tries := 0
        reserved := 0 }
  else mem

/-- Method `success()`: validates, then clears `tries`. -/
def success (self : BackoffHelperClass) (mem : RetainedMem) : RetainedMem :=
  let mem1 := self.validate mem
  Function.update mem1 self.retainedData { mem1 self.retainedData with tries := 0 }

/-- Method `getFailureSleepTimeSecs()`: validates, reads the table at `tableIndex`, multiplies by
60 as an `int`, then increments the `uint16_t` counter. A read outside the array is `none`. -/
def getFailureSleepTimeSecs (self : BackoffHelperClass) (mem : RetainedMem) :
    Option (Int × RetainedMem) :=
  let mem1 := self.validate mem
  let tries := (mem1 self.retainedData).tries
  match self.backoffTable[tableIndex tries self.backoffTableNumElem]? with
  | none => none
  | some minutes =>
    let result : Int := (minutes : Int) * 60
    some (result, Function.update mem1 self.retainedData
      { mem1 self.retainedData with tries := (tries + 1) % UINT16_MODULUS })

/-- Method `getNumTries()`: validates, then returns `tries`. -/
def getNumTries (self : BackoffHelperClass) (mem : RetainedMem) : Nat × RetainedMem :=
  let mem1 := self.validate mem
  ((mem1 self.retainedData).tries, mem1)

end BackoffHelperClass

/-- Address of the global retained structure `builtInRetainedData` of the library. -/
def builtInRetainedData : Nat := 0

/-- The global object `BackoffHelper`, constructed over `builtInRetainedData`. -/
def BackoffHelper : BackoffHelperClass := BackoffHelperClass.new builtInRetainedData

/-- Address of the second retained structure of the self test, `testRetained2`. -/
def testRetained2 : Nat := 1

/-- The object `test2` of the self test, constructed over `testRetained2`. -/
def test2 : BackoffHelperClass := BackoffHelperClass.new testRetained2

/-! ## Calls of the public interface -/

/-- The public methods of `BackoffHelperClass`, with their arguments. -/
inductive Op where
  | withTable (backoffTable : List Nat) (backoffTableNumElem : Nat)
  | withDefaultTable
  | success
  | getFailureSleepTimeSecs
  | getNumTries
  | validate
deriving DecidableEq, Repr

/-- What a call gives back: `*this`, nothing, an `int` or a `uint16_t`. -/
inductive Ret where
  | self
  | void
  | int (v : Int)
  | uint16 (v : Nat)
deriving DecidableEq, Repr

/-- One call of a public method on an object, in a retained memory: the value returned, the
object after the call and the memory after the call. -/
def call (self : BackoffHelperClass) (mem : RetainedMem) :
    Op → Option (Ret × BackoffHelperClass × RetainedMem)
  | .withTable backoffTable backoffTableNumElem =>
    some (.self, self.withTable backoffTable backoffTableNumElem, mem)
  | .withDefaultTable => some (.self, self.withDefaultTable, mem)
  | .success => some (.void, self, self.success mem)
  | .getFailureSleepTimeSecs =>
    match self.getFailureSleepTimeSecs mem with
    | none => none
    | some (v, mem1) => some (.int v, self, mem1)
  | .getNumTries => some (.uint16 (self.getNumTries mem).1, self, (self.getNumTries mem).2)
  | .validate => some (.void, self, self.validate mem)

/-- A sequence of calls on one object: the values returned, in order, and the final object and
memory. -/
def run (self : BackoffHelperClass) (mem : RetainedMem) :
    List Op → Option (List Ret × BackoffHelperClass × RetainedMem)
  | [] => some ([], self, mem)
  | op :: ops =>
    match call self mem op with
    | none => none
    | some (r, self1, mem1) =>
      match run self1 mem1 ops with
      | none => none
      | some (rs, self2, mem2) => some (r :: rs, self2, mem2)

/-- The two objects of a program that uses two counters. -/
inductive Target where
  | A
  | B
deriving DecidableEq, Repr

/-- The calls of an interleaving that are made on the object `t`, in order. -/
def callsOn (t : Target) (ops : List (Target × Op)) : List Op :=
  (ops.filter (fun x => x.1 = t)).map Prod.snd

/-- A sequence of calls on two objects `a` and `b` that live over one retained memory, each call
naming the object it is made on: the values returned on `a`, the values returned on `b`, and the
final objects and memory. -/
def runTwo (a b : BackoffHelperClass) (mem : RetainedMem) :
    List (Target × Op) →
      Option (List Ret × List Ret × BackoffHelperClass × BackoffHelperClass × RetainedMem)
  | [] => some ([], [], a, b, mem)
  | (.A, op) :: ops =>
    match call a mem op with
    | none => none
    | some (r, a1, mem1) =>
      match runTwo a1 b mem1 ops with
      | none => none
      | some (ra, rb, a2, b2, mem2) => some (r :: ra, rb, a2, b2, mem2)
  | (.B, op) :: ops =>
    match call b mem op with
    | none => none
    | some (r, b1, mem1) =>
      match runTwo a b1 mem1 ops with
      | none => none
      | some (ra, rb, a2, b2, mem2) => some (ra, r :: rb, a2, b2, mem2)

/-- The call sequence of the self test (`STATE_START`): `success()`, then seven times
`getFailureSleepTimeSecs()` followed by `getNumTries()`. -/
def selfTestStart : List Op :=
  [.success,
   .getFailureSleepTimeSecs, .getNumTries, .getFailureSleepTimeSecs, .getNumTries,
   .getFailureSleepTimeSecs, .getNumTries, .getFailureSleepTimeSecs, .getNumTries,
   .getFailureSleepTimeSecs, .getNumTries, .getFailureSleepTimeSecs, .getNumTries,
   .getFailureSleepTimeSecs, .getNumTries]

/-- The calls of the self test on a separate table and a separate counter
(`2-self-test.cpp`, lines 146 to 164), `A` being the global object and `B` the object `test2`
with `table2 = {1, 2, 4}`. -/
def selfTestTwoCounters : List (Target × Op) :=
  [(.B, .withTable [1, 2, 4] 3), (.B, .getNumTries),
   (.B, .getFailureSleepTimeSecs), (.B, .getNumTries), (.A, .getNumTries),
   (.B, .getFailureSleepTimeSecs), (.B, .getNumTries),
   (.B, .getFailureSleepTimeSecs), (.B, .getNumTries),
   (.B, .getFailureSleepTimeSecs), (.B, .getNumTries),
   (.B, .success), (.B, .getNumTries), (.A, .getNumTries)]

/-- A retained memory whose structures all hold the given field values. -/
def constMem (magic version reserved tries : Nat) : RetainedMem :=
  fun _ => ⟨magic, version, reserved, tries⟩

/-- A retained memory whose structures are all valid, with the given counter. -/
def validMem (tries : Nat) : RetainedMem :=
  constMem BACKOFFHELPER_RETAINED_MAGIC BACKOFFHELPER_RETAINED_VERSION 0 tries

/-- The retained memory of the self test when the second counter is created: the built-in
structure is valid with counter 3, the rest of the memory is still zero. -/
def selfTestMem : RetainedMem :=
  Function.update (constMem 0 0 0 0) builtInRetainedData
    ⟨BACKOFFHELPER_RETAINED_MAGIC, BACKOFFHELPER_RETAINED_VERSION, 0, 3⟩

/-- Whether a returned value is a `uint16_t`; `getNumTries()` is the only method that returns
one. -/
def Ret.isUint16 : Ret → Bool
  | .uint16 _ => true
  | _ => false

/-- A call sequence without its calls of `getNumTries()`. -/
def withoutGetNumTries (ops : List Op) : List Op :=
  ops.filter (fun op => decide (op ≠ Op.getNumTries))

/-! ## Basic facts -/

theorem tableIndex_eq_min (tries n : Nat) (hn : 0 < n) (hsz : n < SIZE_T_MODULUS) :
    tableIndex tries n = min tries (n - 1) := by
  unfold tableIndex SIZE_T_MODULUS at *
  split
  · omega
  · rw [show n + 4294967296 - 1 = (n - 1) + 4294967296 by omega, Nat.add_mod_right,
      Nat.mod_eq_of_lt (by omega)]
    omega

theorem validate_of_isValid (self : BackoffHelperClass) (mem : RetainedMem)
    (h : (mem self.retainedData).isValid) : self.validate mem = mem := by
  unfold BackoffHelperClass.validate
  rw [if_neg]
  rintro (h1 | h1)
  · exact h1 h.1
  · exact h1 h.2

theorem validate_of_not_isValid (self : BackoffHelperClass) (mem : RetainedMem)
    (h : ¬ (mem self.retainedData).isValid) :
    self.validate mem = Function.update mem self.retainedData
      ⟨BACKOFFHELPER_RETAINED_MAGIC, BACKOFFHELPER_RETAINED_VERSION, 0, 0⟩ := by
  unfold BackoffHelperClass.validate
  rw [if_pos]
  by_contra hc
  push_neg at hc
  exact h hc

theorem validate_isValid (self : BackoffHelperClass) (mem : RetainedMem) :
    (self.validate mem self.retainedData).isValid := by
  by_cases h : (mem self.retainedData).isValid
  · rw [validate_of_isValid self mem h]; exact h
  · rw [validate_of_not_isValid self mem h]
    simp [BackoffHelperRetained.isValid]

theorem validate_tries_of_not_isValid (self : BackoffHelperClass) (mem : RetainedMem)
    (h : ¬ (mem self.retainedData).isValid) :
    (self.validate mem self.retainedData).tries = 0 := by
  rw [validate_of_not_isValid self mem h]
  simp

/-- On a valid record, with an index inside the array, the failure report reads the array at
`tableIndex` and stores the incremented counter. -/
theorem getFailureSleepTimeSecs_of_isValid (self : BackoffHelperClass) (mem : RetainedMem)
    (h : (mem self.retainedData).isValid) (v : Nat)
    (hv : self.backoffTable[tableIndex (mem self.retainedData).tries
      self.backoffTableNumElem]? = some v) :
    self.getFailureSleepTimeSecs mem = some ((v : Int) * 60,
      Function.update mem self.retainedData
        { mem self.retainedData with
          tries := ((mem self.retainedData).tries + 1) % UINT16_MODULUS }) := by
  unfold BackoffHelperClass.getFailureSleepTimeSecs
  simp only [validate_of_isValid self mem h, hv]

theorem isValid_mk (res t : Nat) :
    (BackoffHelperRetained.mk BACKOFFHELPER_RETAINED_MAGIC BACKOFFHELPER_RETAINED_VERSION res
      t).isValid := ⟨rfl, rfl⟩

theorem validate_update (self : BackoffHelperClass) (mem : RetainedMem)
    (r : BackoffHelperRetained) (h : r.isValid) :
    self.validate (Function.update mem self.retainedData r) =
      Function.update mem self.retainedData r := by
  apply validate_of_isValid
  simpa using h

theorem success_update (self : BackoffHelperClass) (mem : RetainedMem)
    (r : BackoffHelperRetained) (h : r.isValid) :
    self.success (Function.update mem self.retainedData r) =
      Function.update mem self.retainedData { r with tries := 0 } := by
  unfold BackoffHelperClass.success
  simp [validate_update self mem r h]

theorem getFailureSleepTimeSecs_update (self : BackoffHelperClass) (mem : RetainedMem)
    (r : BackoffHelperRetained) (h : r.isValid) :
    self.getFailureSleepTimeSecs (Function.update mem self.retainedData r) =
      Option.map (fun v : Nat => ((v : Int) * 60, Function.update mem self.retainedData
          { r with tries := (r.tries + 1) % UINT16_MODULUS }))
        (self.backoffTable[tableIndex r.tries self.backoffTableNumElem]?) := by
  unfold BackoffHelperClass.getFailureSleepTimeSecs
  simp only [validate_update self mem r h, Function.update_same, Function.update_idem]
  cases self.backoffTable[tableIndex r.tries self.backoffTableNumElem]? <;> rfl

theorem getNumTries_update (self : BackoffHelperClass) (mem : RetainedMem)
    (r : BackoffHelperRetained) (h : r.isValid) :
    self.getNumTries (Function.update mem self.retainedData r) =
      (r.tries, Function.update mem self.retainedData r) := by
  unfold BackoffHelperClass.getNumTries
  simp [validate_update self mem r h]

/-- After `success()` the record holds the expected constants and a zero counter; `reserved`
is the previous one on a valid record and 0 otherwise. -/
theorem success_eq (self : BackoffHelperClass) (mem : RetainedMem) :
    self.success mem = Function.update mem self.retainedData
      ⟨BACKOFFHELPER_RETAINED_MAGIC, BACKOFFHELPER_RETAINED_VERSION,
        if (mem self.retainedData).isValid then (mem self.retainedData).reserved else 0, 0⟩ := by
  unfold BackoffHelperClass.success
  by_cases h : (mem self.retainedData).isValid
  · rw [validate_of_isValid self mem h, if_pos h]
    rw [← h.1, ← h.2]
  · rw [validate_of_not_isValid self mem h, if_neg h]
    simp


theorem run_cons (self : BackoffHelperClass) (mem : RetainedMem) (op : Op) (ops : List Op) :
    run self mem (op :: ops) = (call self mem op).bind
      (fun x => (run x.2.1 x.2.2 ops).map (fun y => (x.1 :: y.1, y.2))) := by
  rw [run]
  cases call self mem op with
  | none => rfl
  | some x =>
    obtain ⟨r, self1, mem1⟩ := x
    simp only [Option.some_bind]
    cases run self1 mem1 ops <;> rfl

theorem call_success_mk (tbl : List Nat) (n p : Nat) (mem : RetainedMem) :
    call ⟨tbl, n, p⟩ mem .success = some (.void, ⟨tbl, n, p⟩, Function.update mem p
      ⟨BACKOFFHELPER_RETAINED_MAGIC, BACKOFFHELPER_RETAINED_VERSION,
        if (mem p).isValid then (mem p).reserved else 0, 0⟩) := by
  simp only [call, success_eq]

theorem call_getFailureSleepTimeSecs_mk (tbl : List Nat) (n p : Nat) (mem : RetainedMem)
    (r : BackoffHelperRetained) (h : r.isValid) :
    call ⟨tbl, n, p⟩ (Function.update mem p r) .getFailureSleepTimeSecs =
      Option.map (fun v : Nat => (Ret.int ((v : Int) * 60), ⟨tbl, n, p⟩, Function.update mem p
          { r with tries := (r.tries + 1) % UINT16_MODULUS })) (tbl[tableIndex r.tries n]?) := by
  have e := getFailureSleepTimeSecs_update ⟨tbl, n, p⟩ mem r h
  simp only at e
  simp only [call, e]
  cases tbl[tableIndex r.tries n]? <;> rfl

theorem call_getNumTries_mk (tbl : List Nat) (n p : Nat) (mem : RetainedMem)
    (r : BackoffHelperRetained) (h : r.isValid) :
    call ⟨tbl, n, p⟩ (Function.update mem p r) .getNumTries =
      some (.uint16 r.tries, ⟨tbl, n, p⟩, Function.update mem p r) := by
  have e := getNumTries_update ⟨tbl, n, p⟩ mem r h
  simp only at e
  simp only [call, e]


/-- A run of `k` failure reports from a valid record with counter `t`: every read is inside the
table, the `i`-th value (from 0) comes from index `min ((t + i) mod 65536) (n - 1)`, and the
counter ends at `(t + k) mod 65536`. -/
theorem run_failures (tbl : List Nat) (n p : Nat) (mem : RetainedMem)
    (hn : 0 < n) (hlen : n ≤ tbl.length) (hsz : n < SIZE_T_MODULUS) (k : Nat) :
    ∀ r : BackoffHelperRetained, r.isValid → r.tries < UINT16_MODULUS →
      ∃ rets, run ⟨tbl, n, p⟩ (Function.update mem p r)
          (List.replicate k Op.getFailureSleepTimeSecs) =
            some (rets, ⟨tbl, n, p⟩,
              Function.update mem p { r with tries := (r.tries + k) % UINT16_MODULUS }) ∧
        rets.length = k ∧
        ∀ i, i < k → rets[i]? = Option.map (fun v : Nat => Ret.int ((v : Int) * 60))
          (tbl[min ((r.tries + i) % UINT16_MODULUS) (n - 1)]?) := by
  induction k with
  | zero =>
    intro r _ ht
    refine ⟨[], ?_, rfl, fun i hi => absurd hi (Nat.not_lt_zero i)⟩
    simp [run, Nat.mod_eq_of_lt ht]
  | succ k ih =>
    intro r hr ht
    have hidx : tableIndex r.tries n < tbl.length := by
      rw [tableIndex_eq_min r.tries n hn hsz]; omega
    obtain ⟨v, hv⟩ : ∃ v, tbl[tableIndex r.tries n]? = some v :=
      ⟨tbl[tableIndex r.tries n], List.getElem?_eq_getElem hidx⟩
    have hr1 : ({ r with tries := (r.tries + 1) % UINT16_MODULUS } :
        BackoffHelperRetained).isValid := hr
    have ht1 : (r.tries + 1) % UINT16_MODULUS < UINT16_MODULUS :=
      Nat.mod_lt _ (by unfold UINT16_MODULUS; omega)
    obtain ⟨rets, hrun, hlenr, hget⟩ := ih _ hr1 ht1
    refine ⟨Ret.int ((v : Int) * 60) :: rets, ?_, by simp [hlenr], ?_⟩
    · rw [List.replicate_succ, run_cons, call_getFailureSleepTimeSecs_mk tbl n p mem r hr, hv]
      simp only [Option.map_some', Option.some_bind, hrun]
      simp [Nat.add_assoc, Nat.add_comm 1 k]
    · intro i hi
      cases i with
      | zero =>
        simp only [List.getElem?_cons_zero, Nat.add_zero, Nat.mod_eq_of_lt ht]
        rw [← tableIndex_eq_min r.tries n hn hsz, hv]
        rfl
      | succ i =>
        simp only [List.getElem?_cons_succ]
        rw [hget i (by omega)]
        simp [Nat.add_assoc, Nat.add_comm 1 i]

/-! ## Frame lemmas: a call touches only the record of its object -/

theorem validate_update_other (self : BackoffHelperClass) (mem : RetainedMem) (q : Nat)
    (v : BackoffHelperRetained) (hq : q ≠ self.retainedData) :
    self.validate (Function.update mem q v) = Function.update (self.validate mem) q v := by
  unfold BackoffHelperClass.validate
  rw [Function.update_noteq (Ne.symm hq)]
  split
  · exact Function.update_comm hq _ _ _
  · rfl

theorem success_update_other (self : BackoffHelperClass) (mem : RetainedMem) (q : Nat)
    (v : BackoffHelperRetained) (hq : q ≠ self.retainedData) :
    self.success (Function.update mem q v) = Function.update (self.success mem) q v := by
  unfold BackoffHelperClass.success
  simp only [validate_update_other self mem q v hq]
  rw [Function.update_noteq (Ne.symm hq)]
  exact Function.update_comm hq _ _ _

theorem getNumTries_update_other (self : BackoffHelperClass) (mem : RetainedMem) (q : Nat)
    (v : BackoffHelperRetained) (hq : q ≠ self.retainedData) :
    self.getNumTries (Function.update mem q v) =
      ((self.getNumTries mem).1, Function.update (self.getNumTries mem).2 q v) := by
  unfold BackoffHelperClass.getNumTries
  simp only [validate_update_other self mem q v hq]
  rw [Function.update_noteq (Ne.symm hq)]

theorem getFailureSleepTimeSecs_update_other (self : BackoffHelperClass) (mem : RetainedMem)
    (q : Nat) (v : BackoffHelperRetained) (hq : q ≠ self.retainedData) :
    self.getFailureSleepTimeSecs (Function.update mem q v) =
      (self.getFailureSleepTimeSecs mem).map (fun y => (y.1, Function.update y.2 q v)) := by
  unfold BackoffHelperClass.getFailureSleepTimeSecs
  simp only [validate_update_other self mem q v hq]
  rw [Function.update_noteq (Ne.symm hq)]
  cases self.backoffTable[tableIndex (self.validate mem self.retainedData).tries
    self.backoffTableNumElem]? with
  | none => rfl
  | some w =>
    simp only [Option.map_some']
    rw [Function.update_comm hq]

/-- A call on an object sees a write to another address only as that same write in its final
memory. -/
theorem call_update_other (self : BackoffHelperClass) (mem : RetainedMem) (q : Nat)
    (v : BackoffHelperRetained) (hq : q ≠ self.retainedData) (op : Op) :
    call self (Function.update mem q v) op =
      (call self mem op).map (fun y => (y.1, y.2.1, Function.update y.2.2 q v)) := by
  cases op with
  | withTable t n => rfl
  | withDefaultTable => rfl
  | success => simp only [call, success_update_other self mem q v hq, Option.map_some']
  | getFailureSleepTimeSecs =>
    simp only [call, getFailureSleepTimeSecs_update_other self mem q v hq]
    cases self.getFailureSleepTimeSecs mem <;> rfl
  | getNumTries => simp only [call, getNumTries_update_other self mem q v hq, Option.map_some']
  | validate => simp only [call, validate_update_other self mem q v hq, Option.map_some']

theorem validate_frame (self : BackoffHelperClass) (mem : RetainedMem) (q : Nat)
    (hq : q ≠ self.retainedData) : self.validate mem q = mem q := by
  unfold BackoffHelperClass.validate
  split
  · exact Function.update_noteq hq _ _
  · rfl

/-- A call keeps the object bound to its record and leaves every other address as it was. -/
theorem call_frame (self : BackoffHelperClass) (mem : RetainedMem) (op : Op) (r : Ret)
    (self1 : BackoffHelperClass) (mem1 : RetainedMem)
    (h : call self mem op = some (r, self1, mem1)) :
    self1.retainedData = self.retainedData ∧
      ∀ q, q ≠ self.retainedData → mem1 q = mem q := by
  cases op with
  | withTable t n =>
    simp only [call, Option.some.injEq, Prod.mk.injEq] at h
    obtain ⟨-, h1, h2⟩ := h
    subst h1 h2
    exact ⟨rfl, fun _ _ => rfl⟩
  | withDefaultTable =>
    simp only [call, Option.some.injEq, Prod.mk.injEq] at h
    obtain ⟨-, h1, h2⟩ := h
    subst h1 h2
    exact ⟨rfl, fun _ _ => rfl⟩
  | success =>
    simp only [call, Option.some.injEq, Prod.mk.injEq] at h
    obtain ⟨-, h1, h2⟩ := h
    subst h1 h2
    refine ⟨rfl, fun q hq => ?_⟩
    unfold BackoffHelperClass.success
    simp only [Function.update_noteq hq, validate_frame self mem q hq]
  | getFailureSleepTimeSecs =>
    unfold call at h
    unfold BackoffHelperClass.getFailureSleepTimeSecs at h
    simp only at h
    split at h
    · exact absurd h (by simp)
    · rename_i v m2 heq
      split at heq
      · exact absurd heq (by simp)
      · simp only [Option.some.injEq, Prod.mk.injEq] at heq h
        obtain ⟨-, h1, h2⟩ := h
        obtain ⟨-, h3⟩ := heq
        subst h1 h2 h3
        refine ⟨rfl, fun q hq => ?_⟩
        simp only [Function.update_noteq hq, validate_frame self mem q hq]
  | getNumTries =>
    simp only [call, Option.some.injEq, Prod.mk.injEq] at h
    obtain ⟨-, h1, h2⟩ := h
    subst h1 h2
    exact ⟨rfl, fun q hq => validate_frame self mem q hq⟩
  | validate =>
    simp only [call, Option.some.injEq, Prod.mk.injEq] at h
    obtain ⟨-, h1, h2⟩ := h
    subst h1 h2
    exact ⟨rfl, fun q hq => validate_frame self mem q hq⟩

theorem call_mem_eq_update (self : BackoffHelperClass) (mem : RetainedMem) (op : Op) (r : Ret)
    (self1 : BackoffHelperClass) (mem1 : RetainedMem)
    (h : call self mem op = some (r, self1, mem1)) :
    mem1 = Function.update mem self.retainedData (mem1 self.retainedData) := by
  funext q
  by_cases hq : q = self.retainedData
  · subst hq; simp
  · rw [Function.update_noteq hq]
    exact (call_frame self mem op r self1 mem1 h).2 q hq

theorem run_update_other (ops : List Op) :
    ∀ (self : BackoffHelperClass) (mem : RetainedMem) (q : Nat) (v : BackoffHelperRetained),
      q ≠ self.retainedData →
      run self (Function.update mem q v) ops =
        (run self mem ops).map (fun y => (y.1, y.2.1, Function.update y.2.2 q v)) := by
  induction ops with
  | nil => intro self mem q v _; rfl
  | cons op ops ih =>
    intro self mem q v hq
    rw [run_cons, run_cons, call_update_other self mem q v hq]
    cases hc : call self mem op with
    | none => rfl
    | some x =>
      obtain ⟨r, self1, mem1⟩ := x
      have hp := (call_frame self mem op r self1 mem1 hc).1
      simp only [Option.map_some', Option.some_bind]
      rw [ih self1 mem1 q v (by rw [hp]; exact hq)]
      cases run self1 mem1 ops <;> rfl

theorem run_retainedData (ops : List Op) :
    ∀ (self : BackoffHelperClass) (mem : RetainedMem) (rs : List Ret)
      (self1 : BackoffHelperClass) (mem1 : RetainedMem),
      run self mem ops = some (rs, self1, mem1) → self1.retainedData = self.retainedData := by
  induction ops with
  | nil =>
    intro self mem rs self1 mem1 h
    simp only [run, Option.some.injEq, Prod.mk.injEq] at h
    rw [← h.2.1]
  | cons op ops ih =>
    intro self mem rs self1 mem1 h
    rw [run_cons] at h
    cases hc : call self mem op with
    | none => rw [hc] at h; exact absurd h (by simp)
    | some x =>
      obtain ⟨r, s1, m1⟩ := x
      rw [hc] at h
      simp only [Option.some_bind] at h
      cases hr : run s1 m1 ops with
      | none => rw [hr] at h; exact absurd h (by simp)
      | some y =>
        obtain ⟨rs2, s2, m2⟩ := y
        rw [hr] at h
        simp only [Option.map_some', Option.some.injEq, Prod.mk.injEq] at h
        rw [← h.2.1, ih s1 m1 rs2 s2 m2 hr, (call_frame self mem op r s1 m1 hc).1]

/-- An interleaved run over two distinct records is the pair of the two separate runs: each
object gets the values, the final object and the final record of its own calls run alone. -/
theorem runTwo_eq (ops : List (Target × Op)) :
    ∀ (a b : BackoffHelperClass) (mem : RetainedMem), a.retainedData ≠ b.retainedData →
      runTwo a b mem ops =
        (run a mem (callsOn .A ops)).bind (fun x =>
          (run b mem (callsOn .B ops)).map (fun y =>
            (x.1, y.1, x.2.1, y.2.1,
              Function.update y.2.2 a.retainedData (x.2.2 a.retainedData)))) := by
  induction ops with
  | nil =>
    intro a b mem _
    simp [runTwo, callsOn, run]
  | cons top ops ih =>
    intro a b mem hab
    obtain ⟨t, op⟩ := top
    cases t with
    | A =>
      have hA : callsOn .A ((Target.A, op) :: ops) = op :: callsOn .A ops := by
        simp [callsOn]
      have hB : callsOn .B ((Target.A, op) :: ops) = callsOn .B ops := by
        simp [callsOn]
      rw [hA, hB, run_cons, runTwo]
      cases hc : call a mem op with
      | none => rfl
      | some x =>
        obtain ⟨r, a1, mem1⟩ := x
        have hp := (call_frame a mem op r a1 mem1 hc).1
        have hm := call_mem_eq_update a mem op r a1 mem1 hc
        simp only [Option.some_bind]
        rw [ih a1 b mem1 (by rw [hp]; exact hab)]
        have hb : run b mem1 (callsOn .B ops) = (run b mem (callsOn .B ops)).map
            (fun y => (y.1, y.2.1, Function.update y.2.2 a.retainedData
              (mem1 a.retainedData))) := by
          conv_lhs => rw [hm]
          exact run_update_other _ b mem _ _ hab
        rw [hb, hp]
        cases run a1 mem1 (callsOn .A ops) with
        | none => rfl
        | some x =>
          cases run b mem (callsOn .B ops) with
          | none => rfl
          | some y => simp
    | B =>
      have hA : callsOn .A ((Target.B, op) :: ops) = callsOn .A ops := by
        simp [callsOn]
      have hB : callsOn .B ((Target.B, op) :: ops) = op :: callsOn .B ops := by
        simp [callsOn]
      rw [hA, hB, run_cons, runTwo]
      cases hc : call b mem op with
      | none =>
        simp only [Option.none_bind, Option.map_none']
        cases run a mem (callsOn .A ops) <;> rfl
      | some x =>
        obtain ⟨r, b1, mem1⟩ := x
        have hp := (call_frame b mem op r b1 mem1 hc).1
        have hm := call_mem_eq_update b mem op r b1 mem1 hc
        simp only [Option.some_bind]
        rw [ih a b1 mem1 (by rw [hp]; exact hab)]
        have ha : run a mem1 (callsOn .A ops) = (run a mem (callsOn .A ops)).map
            (fun y => (y.1, y.2.1, Function.update y.2.2 b.retainedData
              (mem1 b.retainedData))) := by
          conv_lhs => rw [hm]
          exact run_update_other _ a mem _ _ (Ne.symm hab)
        rw [ha]
        cases run a mem (callsOn .A ops) with
        | none => rfl
        | some x =>
          cases run b1 mem1 (callsOn .B ops) with
          | none => rfl
          | some y => simp [Function.update_noteq hab]

/-! ## Validation, validity and the values returned -/

theorem validate_eq_update (self : BackoffHelperClass) (mem : RetainedMem) :
    self.validate mem =
      Function.update mem self.retainedData (self.validate mem self.retainedData) := by
  funext q
  by_cases hq : q = self.retainedData
  · subst hq; simp
  · rw [Function.update_noteq hq, validate_frame self mem q hq]

theorem validate_validate (self : BackoffHelperClass) (mem : RetainedMem) :
    self.validate (self.validate mem) = self.validate mem :=
  validate_of_isValid self _ (validate_isValid self mem)

theorem getFailureSleepTimeSecs_validate (self : BackoffHelperClass) (mem : RetainedMem) :
    self.getFailureSleepTimeSecs (self.validate mem) = self.getFailureSleepTimeSecs mem := by
  unfold BackoffHelperClass.getFailureSleepTimeSecs
  rw [validate_validate]

/-- The failure report returns as soon as the table has at least one element, whatever the
record holds, and leaves a valid record. -/
theorem getFailureSleepTimeSecs_isSome (self : BackoffHelperClass) (mem : RetainedMem)
    (hm : 0 < self.backoffTableNumElem)
    (hlen : self.backoffTableNumElem ≤ self.backoffTable.length)
    (hsz : self.backoffTableNumElem < SIZE_T_MODULUS) :
    ∃ v : Nat, self.getFailureSleepTimeSecs mem = some ((v : Int) * 60,
      Function.update (self.validate mem) self.retainedData
        { self.validate mem self.retainedData with
          tries := ((self.validate mem self.retainedData).tries + 1) % UINT16_MODULUS }) := by
  have hlt : tableIndex (self.validate mem self.retainedData).tries self.backoffTableNumElem <
      self.backoffTable.length := by
    rw [tableIndex_eq_min _ _ hm hsz]; omega
  refine ⟨self.backoffTable[tableIndex (self.validate mem self.retainedData).tries
    self.backoffTableNumElem], ?_⟩
  unfold BackoffHelperClass.getFailureSleepTimeSecs
  simp only [List.getElem?_eq_getElem hlt]

/-- A call on a valid record leaves a valid record. -/
theorem call_isValid (self : BackoffHelperClass) (mem : RetainedMem) (op : Op) (r : Ret)
    (self1 : BackoffHelperClass) (mem1 : RetainedMem)
    (hvalid : (mem self.retainedData).isValid)
    (h : call self mem op = some (r, self1, mem1)) : (mem1 self1.retainedData).isValid := by
  have hp := (call_frame self mem op r self1 mem1 h).1
  rw [hp]
  cases op with
  | withTable t n =>
    simp only [call, Option.some.injEq, Prod.mk.injEq] at h
    rw [← h.2.2]; exact hvalid
  | withDefaultTable =>
    simp only [call, Option.some.injEq, Prod.mk.injEq] at h
    rw [← h.2.2]; exact hvalid
  | success =>
    simp only [call, Option.some.injEq, Prod.mk.injEq] at h
    rw [← h.2.2, success_eq]
    simpa using isValid_mk _ _
  | getFailureSleepTimeSecs =>
    unfold call at h
    unfold BackoffHelperClass.getFailureSleepTimeSecs at h
    simp only at h
    split at h
    · exact absurd h (by simp)
    · rename_i v m2 heq
      split at heq
      · exact absurd heq (by simp)
      · simp only [Option.some.injEq, Prod.mk.injEq] at heq h
        rw [← h.2.2, ← heq.2]
        simpa using validate_isValid self mem
  | getNumTries =>
    simp only [call, Option.some.injEq, Prod.mk.injEq] at h
    rw [← h.2.2]; exact validate_isValid self mem
  | validate =>
    simp only [call, Option.some.injEq, Prod.mk.injEq] at h
    rw [← h.2.2]; exact validate_isValid self mem

/-- Only `getNumTries()` returns a `uint16_t`. -/
theorem call_isUint16 (self : BackoffHelperClass) (mem : RetainedMem) (op : Op) (r : Ret)
    (self1 : BackoffHelperClass) (mem1 : RetainedMem) (hop : op ≠ Op.getNumTries)
    (h : call self mem op = some (r, self1, mem1)) : r.isUint16 = false := by
  cases op with
  | withTable t n =>
    simp only [call, Option.some.injEq, Prod.mk.injEq] at h
    rw [← h.1]; rfl
  | withDefaultTable =>
    simp only [call, Option.some.injEq, Prod.mk.injEq] at h
    rw [← h.1]; rfl
  | success =>
    simp only [call, Option.some.injEq, Prod.mk.injEq] at h
    rw [← h.1]; rfl
  | getFailureSleepTimeSecs =>
    simp only [call] at h
    cases hf : self.getFailureSleepTimeSecs mem with
    | none => rw [hf] at h; exact absurd h (by simp)
    | some y =>
      rw [hf] at h
      simp only [Option.some.injEq, Prod.mk.injEq] at h
      rw [← h.1]; rfl
  | getNumTries => exact absurd rfl hop
  | validate =>
    simp only [call, Option.some.injEq, Prod.mk.injEq] at h
    rw [← h.1]; rfl

theorem call_getNumTries_of_isValid (self : BackoffHelperClass) (mem : RetainedMem)
    (hvalid : (mem self.retainedData).isValid) :
    call self mem .getNumTries = some (.uint16 (mem self.retainedData).tries, self, mem) := by
  simp only [call, BackoffHelperClass.getNumTries, validate_of_isValid self mem hvalid]

/-- On a valid record, removing the calls of `getNumTries()` from a sequence removes their
values from the values returned and changes nothing else. -/
theorem run_withoutGetNumTries (ops : List Op) :
    ∀ (self : BackoffHelperClass) (mem : RetainedMem), (mem self.retainedData).isValid →
      (run self mem ops).map (fun x => (x.1.filter (fun r => !r.isUint16), x.2)) =
        run self mem (withoutGetNumTries ops) := by
  induction ops with
  | nil => intro self mem _; rfl
  | cons op ops ih =>
    intro self mem hvalid
    by_cases hop : op = Op.getNumTries
    · subst hop
      have hw : withoutGetNumTries (Op.getNumTries :: ops) = withoutGetNumTries ops := by
        simp [withoutGetNumTries]
      rw [hw, run_cons, call_getNumTries_of_isValid self mem hvalid, ← ih self mem hvalid]
      simp only [Option.some_bind]
      cases run self mem ops with
      | none => rfl
      | some y => simp [Ret.isUint16]
    · have hw : withoutGetNumTries (op :: ops) = op :: withoutGetNumTries ops := by
        simp [withoutGetNumTries, hop]
      rw [hw, run_cons, run_cons]
      cases hc : call self mem op with
      | none => rfl
      | some x =>
        obtain ⟨r, self1, mem1⟩ := x
        have hv1 := call_isValid self mem op r self1 mem1 hvalid hc
        have hr := call_isUint16 self mem op r self1 mem1 hop hc
        simp only [Option.some_bind]
        rw [← ih self1 mem1 hv1]
        cases run self1 mem1 ops with
        | none => rfl
        | some y => simp [hr]

/-! ## Claims -/

/-- C1: on a valid record with counter `t`, for a table of `m >= 1` elements, the index read by
`getFailureSleepTimeSecs()` (the two-branch form of the code) is `min t (m - 1)`, and the call
returns `table[min t (m - 1)] * 60`: the count before the increment selects the value. -/
theorem getFailureSleepTimeSecs_returns_min_index (self : BackoffHelperClass)
    (mem : RetainedMem) (hm : 0 < self.backoffTableNumElem)
    (hlen : self.backoffTableNumElem ≤ self.backoffTable.length)
    (hsz : self.backoffTableNumElem < SIZE_T_MODULUS)
    (hvalid : (mem self.retainedData).isValid) :
    tableIndex (mem self.retainedData).tries self.backoffTableNumElem =
        min (mem self.retainedData).tries (self.backoffTableNumElem - 1) ∧
      ∃ v, self.backoffTable[min (mem self.retainedData).tries
          (self.backoffTableNumElem - 1)]? = some v ∧
        (self.getFailureSleepTimeSecs mem).map Prod.fst = some ((v : Int) * 60) := by
  have hidx := tableIndex_eq_min (mem self.retainedData).tries _ hm hsz
  refine ⟨hidx, ?_⟩
  have hlt : min (mem self.retainedData).tries (self.backoffTableNumElem - 1) <
      self.backoffTable.length := by omega
  refine ⟨self.backoffTable[min (mem self.retainedData).tries (self.backoffTableNumElem - 1)],
    List.getElem?_eq_getElem hlt, ?_⟩
  rw [getFailureSleepTimeSecs_of_isValid self mem hvalid _
    (by rw [hidx]; exact List.getElem?_eq_getElem hlt)]
  rfl

theorem getFailureSleepTimeSecs_returns_min_index_witness :
    (0 < BackoffHelper.backoffTableNumElem ∧
      BackoffHelper.backoffTableNumElem ≤ BackoffHelper.backoffTable.length ∧
      BackoffHelper.backoffTableNumElem < SIZE_T_MODULUS ∧
      (validMem 7 BackoffHelper.retainedData).isValid) ∧
    (tableIndex (validMem 7 BackoffHelper.retainedData).tries
          BackoffHelper.backoffTableNumElem =
        min (validMem 7 BackoffHelper.retainedData).tries
          (BackoffHelper.backoffTableNumElem - 1) ∧
      ∃ v, BackoffHelper.backoffTable[min (validMem 7 BackoffHelper.retainedData).tries
          (BackoffHelper.backoffTableNumElem - 1)]? = some v ∧
        (BackoffHelper.getFailureSleepTimeSecs (validMem 7)).map Prod.fst =
          some ((v : Int) * 60)) :=
  ⟨⟨by decide, by decide, by decide, by decide⟩,
    getFailureSleepTimeSecs_returns_min_index BackoffHelper (validMem 7) (by decide) (by decide)
      (by decide) (by decide)⟩

/-- C2: for every record, on an object with the default table, `success()` followed by seven
failure reports returns 300, 600, 900, 1200, 1800, 3600, 3600, and `getNumTries()` after each of
them returns 1, 2, ..., 7; the record ends valid with counter 7. -/
theorem selfTestStart_default_table (p : Nat) (mem : RetainedMem) :
    (run (BackoffHelperClass.new p) mem selfTestStart).map (fun x => (x.1, x.2.1, x.2.2 p)) =
      some ([.void, .int 300, .uint16 1, .int 600, .uint16 2, .int 900, .uint16 3,
          .int 1200, .uint16 4, .int 1800, .uint16 5, .int 3600, .uint16 6,
          .int 3600, .uint16 7],
        BackoffHelperClass.new p,
        ⟨BACKOFFHELPER_RETAINED_MAGIC, BACKOFFHELPER_RETAINED_VERSION,
          if (mem p).isValid then (mem p).reserved else 0, 7⟩) := by
  simp [selfTestStart, run_cons, run, BackoffHelperClass.new, call_success_mk,
    call_getFailureSleepTimeSecs_mk, call_getNumTries_mk, isValid_mk, standardBackoffTable,
    tableIndex, UINT16_MODULUS, SIZE_T_MODULUS]

/-- C3: the code breaks the claim at `k = 65537`. With the table `{1, 2}` (so `m = 2`) attached
by `withTable` and a record just reset by `success()`, 65537 consecutive failure reports all
return; the 65536th returns `table[m - 1] * 60 = 120`, but the 65537th returns
`table[0] * 60 = 60`, not 120: the `uint16_t` counter has gone from 65535 to 0. -/
theorem kth_failure_after_wrap_returns_first :
    ∃ rets mem1,
      run (BackoffHelper.withTable [1, 2] 2)
          ((BackoffHelper.withTable [1, 2] 2).success (validMem 0))
          (List.replicate 65537 Op.getFailureSleepTimeSecs) =
        some (rets, BackoffHelper.withTable [1, 2] 2, mem1) ∧
      rets[65536 - 1]? = some (Ret.int (2 * 60)) ∧
      rets[65537 - 1]? = some (Ret.int (1 * 60)) ∧
      rets[65537 - 1]? ≠ some (Ret.int (2 * 60)) := by
  obtain ⟨rets, hrun, -, hget⟩ := run_failures [1, 2] 2 0 (validMem 0) (by decide) (by decide)
    (by decide) 65537 ⟨BACKOFFHELPER_RETAINED_MAGIC, BACKOFFHELPER_RETAINED_VERSION,
      if (validMem 0 0).isValid then (validMem 0 0).reserved else 0, 0⟩ (isValid_mk _ _)
    (by decide)
  have h := hget 65536 (by omega)
  have h0 := hget 65535 (by omega)
  exact ⟨rets, _,
    by simpa only [BackoffHelperClass.withTable, BackoffHelperClass.new, success_eq] using hrun,
    by rw [h0]; simp [UINT16_MODULUS], by rw [h]; simp [UINT16_MODULUS],
    by rw [h]; simp [UINT16_MODULUS]⟩

/-- C4: for every record and every table with at least one element, `success()` leaves the
counter at 0, and the failure report that follows returns `table[0] * 60` and leaves the
counter at 1. -/
theorem success_then_first_failure (self : BackoffHelperClass) (mem : RetainedMem)
    (hm : 0 < self.backoffTableNumElem)
    (hlen : self.backoffTableNumElem ≤ self.backoffTable.length) :
    (self.success mem self.retainedData).tries = 0 ∧
      ∃ (v : Nat) (mem1 : RetainedMem), self.backoffTable[0]? = some v ∧
        self.getFailureSleepTimeSecs (self.success mem) = some ((v : Int) * 60, mem1) ∧
        (mem1 self.retainedData).tries = 1 := by
  have h0 : tableIndex 0 self.backoffTableNumElem = 0 := by
    unfold tableIndex; rw [if_pos hm]
  have hlt : 0 < self.backoffTable.length := by omega
  have hf := getFailureSleepTimeSecs_update self mem
    ⟨BACKOFFHELPER_RETAINED_MAGIC, BACKOFFHELPER_RETAINED_VERSION,
      if (mem self.retainedData).isValid then (mem self.retainedData).reserved else 0, 0⟩
    (isValid_mk _ _)
  simp only [h0, List.getElem?_eq_getElem hlt, Option.map_some'] at hf
  rw [success_eq]
  exact ⟨by simp, _, _, List.getElem?_eq_getElem hlt, hf, by simp [UINT16_MODULUS]⟩

theorem success_then_first_failure_witness :
    (0 < BackoffHelper.backoffTableNumElem ∧
      BackoffHelper.backoffTableNumElem ≤ BackoffHelper.backoffTable.length) ∧
    ((BackoffHelper.success (validMem 9) BackoffHelper.retainedData).tries = 0 ∧
      ∃ (v : Nat) (mem1 : RetainedMem), BackoffHelper.backoffTable[0]? = some v ∧
        BackoffHelper.getFailureSleepTimeSecs (BackoffHelper.success (validMem 9)) =
          some ((v : Int) * 60, mem1) ∧
        (mem1 BackoffHelper.retainedData).tries = 1) :=
  ⟨⟨by decide, by decide⟩, success_then_first_failure BackoffHelper (validMem 9) (by decide)
    (by decide)⟩

/-- C5: the code breaks the claim at `t = 65535`. On a valid record with counter 65535 and the
default table, the failure report returns 3600 and leaves the counter at 0, not at 65535. That
record is reached through the public calls: after `success()` and 65535 failure reports the
counter is 65535, and one more failure report leaves it at 0. -/
theorem tries_wraps_at_65535 :
    (BackoffHelper.getFailureSleepTimeSecs (validMem 65535)).map
        (fun x => (x.1, (x.2 BackoffHelper.retainedData).tries)) = some (3600, 0) ∧
      (BackoffHelper.getFailureSleepTimeSecs (validMem 65535)).map
        (fun x => (x.2 BackoffHelper.retainedData).tries) ≠ some 65535 ∧
      ∃ rets mem1,
        run BackoffHelper (BackoffHelper.success (constMem 0 0 0 0))
            (List.replicate 65535 Op.getFailureSleepTimeSecs) =
          some (rets, BackoffHelper, mem1) ∧
        (BackoffHelper.getNumTries mem1).1 = 65535 ∧
        (BackoffHelper.getFailureSleepTimeSecs mem1).map
          (fun x => (BackoffHelper.getNumTries x.2).1) = some 0 := by
  have h := getFailureSleepTimeSecs_of_isValid BackoffHelper (validMem 65535) (by decide) 60
    (by decide)
  obtain ⟨rets, hrun, -, -⟩ := run_failures standardBackoffTable 6 0 (constMem 0 0 0 0)
    (by decide) (by decide) (by decide) 65535
    ⟨BACKOFFHELPER_RETAINED_MAGIC, BACKOFFHELPER_RETAINED_VERSION,
      if (constMem 0 0 0 0 0).isValid then (constMem 0 0 0 0 0).reserved else 0, 0⟩
    (isValid_mk _ _) (by decide)
  have hs : BackoffHelper.success (constMem 0 0 0 0) = Function.update (constMem 0 0 0 0) 0
      ⟨BACKOFFHELPER_RETAINED_MAGIC, BACKOFFHELPER_RETAINED_VERSION,
        if (constMem 0 0 0 0 0).isValid then (constMem 0 0 0 0 0).reserved else 0, 0⟩ :=
    success_eq BackoffHelper (constMem 0 0 0 0)
  have hrun2 : run BackoffHelper (BackoffHelper.success (constMem 0 0 0 0))
      (List.replicate 65535 Op.getFailureSleepTimeSecs) =
        some (rets, BackoffHelper, Function.update (constMem 0 0 0 0) 0
          ⟨BACKOFFHELPER_RETAINED_MAGIC, BACKOFFHELPER_RETAINED_VERSION, 0, 65535⟩) := by
    rw [hs]; exact hrun
  have hg : ∀ r : BackoffHelperRetained, r.isValid →
      BackoffHelper.getNumTries (Function.update (constMem 0 0 0 0) 0 r) =
        (r.tries, Function.update (constMem 0 0 0 0) 0 r) :=
    getNumTries_update BackoffHelper (constMem 0 0 0 0)
  have hf : BackoffHelper.getFailureSleepTimeSecs (Function.update (constMem 0 0 0 0) 0
      ⟨BACKOFFHELPER_RETAINED_MAGIC, BACKOFFHELPER_RETAINED_VERSION, 0, 65535⟩) =
        some ((60 : Int) * 60, Function.update (constMem 0 0 0 0) 0
          ⟨BACKOFFHELPER_RETAINED_MAGIC, BACKOFFHELPER_RETAINED_VERSION, 0, 0⟩) :=
    getFailureSleepTimeSecs_update BackoffHelper (constMem 0 0 0 0)
      ⟨BACKOFFHELPER_RETAINED_MAGIC, BACKOFFHELPER_RETAINED_VERSION, 0, 65535⟩ (isValid_mk _ _)
  refine ⟨by rw [h]; simp [validMem, constMem, UINT16_MODULUS],
    by rw [h]; simp [validMem, constMem, UINT16_MODULUS], rets, _, hrun2, ?_, ?_⟩
  · rw [hg _ (isValid_mk _ _)]
  · rw [hf, Option.map_some', hg _ (isValid_mk _ _)]

/-- C6 fails as stated: `withTable` with an empty table (length 0) returns `*this` like any
other call, and the object that had the default table now has the empty table and length 0. -/
theorem withTable_empty_replaces_table_counterexample :
    call BackoffHelper (validMem 0) (.withTable [] 0) =
        some (.self, ⟨[], 0, 0⟩, validMem 0) ∧
      (BackoffHelper.withTable [] 0).backoffTable ≠ BackoffHelper.backoffTable ∧
      (BackoffHelper.withTable [] 0).backoffTableNumElem ≠ BackoffHelper.backoffTableNumElem :=
  ⟨rfl, by decide, by decide⟩

/-- C6 (amended): `withTable` called with an empty table (length 0) is accepted without any
error: the call returns `*this`, the attached table becomes the empty table and its length 0,
the object stays bound to its record and retained memory is unchanged. -/
theorem withTable_empty_accepted (self : BackoffHelperClass) (mem : RetainedMem) :
    call self mem (.withTable [] 0) = some (.self, self.withTable [] 0, mem) ∧
      (self.withTable [] 0).backoffTable = [] ∧
      (self.withTable [] 0).backoffTableNumElem = 0 ∧
      (self.withTable [] 0).retainedData = self.retainedData :=
  ⟨rfl, rfl, rfl, rfl⟩

/-- C7: on a record whose magic or version is not the expected one, with a table of at least
one element: `success()` leaves a valid record with counter 0; `getNumTries()` returns 0 and
leaves a valid record with counter 0; a failure report returns `table[0] * 60` and leaves a
valid record with counter 1. Each of the three calls gives exactly what it gives on the valid
record with counter 0 (and `reserved` 0) at the same address. -/
theorem first_call_on_corrupt_record (self : BackoffHelperClass) (mem : RetainedMem)
    (hm : 0 < self.backoffTableNumElem)
    (hlen : self.backoffTableNumElem ≤ self.backoffTable.length)
    (hbad : (mem self.retainedData).magic ≠ BACKOFFHELPER_RETAINED_MAGIC ∨
      (mem self.retainedData).version ≠ BACKOFFHELPER_RETAINED_VERSION) :
    ((self.success mem self.retainedData).magic = BACKOFFHELPER_RETAINED_MAGIC ∧
      (self.success mem self.retainedData).version = BACKOFFHELPER_RETAINED_VERSION ∧
      (self.success mem self.retainedData).tries = 0) ∧
    ((self.getNumTries mem).1 = 0 ∧
      ((self.getNumTries mem).2 self.retainedData).magic = BACKOFFHELPER_RETAINED_MAGIC ∧
      ((self.getNumTries mem).2 self.retainedData).version = BACKOFFHELPER_RETAINED_VERSION ∧
      ((self.getNumTries mem).2 self.retainedData).tries = 0) ∧
    (∃ (v : Nat) (mem1 : RetainedMem), self.backoffTable[0]? = some v ∧
      self.getFailureSleepTimeSecs mem = some ((v : Int) * 60, mem1) ∧
      (mem1 self.retainedData).magic = BACKOFFHELPER_RETAINED_MAGIC ∧
      (mem1 self.retainedData).version = BACKOFFHELPER_RETAINED_VERSION ∧
      (mem1 self.retainedData).tries = 1) ∧
    (self.success mem = self.success (Function.update mem self.retainedData
        ⟨BACKOFFHELPER_RETAINED_MAGIC, BACKOFFHELPER_RETAINED_VERSION, 0, 0⟩) ∧
      self.getNumTries mem = self.getNumTries (Function.update mem self.retainedData
        ⟨BACKOFFHELPER_RETAINED_MAGIC, BACKOFFHELPER_RETAINED_VERSION, 0, 0⟩) ∧
      self.getFailureSleepTimeSecs mem =
        self.getFailureSleepTimeSecs (Function.update mem self.retainedData
          ⟨BACKOFFHELPER_RETAINED_MAGIC, BACKOFFHELPER_RETAINED_VERSION, 0, 0⟩)) := by
  have hinv : ¬ (mem self.retainedData).isValid := by
    rintro ⟨h1, h2⟩
    rcases hbad with h | h
    · exact h h1
    · exact h h2
  have hv := validate_of_not_isValid self mem hinv
  have hv2 := validate_update self mem
    ⟨BACKOFFHELPER_RETAINED_MAGIC, BACKOFFHELPER_RETAINED_VERSION, 0, 0⟩ (isValid_mk 0 0)
  have h0 : tableIndex 0 self.backoffTableNumElem = 0 := by
    unfold tableIndex; rw [if_pos hm]
  have hlt : 0 < self.backoffTable.length := by omega
  have hf := getFailureSleepTimeSecs_update self mem
    ⟨BACKOFFHELPER_RETAINED_MAGIC, BACKOFFHELPER_RETAINED_VERSION, 0, 0⟩ (isValid_mk 0 0)
  simp only [h0, List.getElem?_eq_getElem hlt, Option.map_some'] at hf
  have hsame : self.getFailureSleepTimeSecs mem =
      self.getFailureSleepTimeSecs (Function.update mem self.retainedData
        ⟨BACKOFFHELPER_RETAINED_MAGIC, BACKOFFHELPER_RETAINED_VERSION, 0, 0⟩) := by
    unfold BackoffHelperClass.getFailureSleepTimeSecs
    rw [hv, hv2]
  refine ⟨?_, ?_, ?_, ?_, ?_, hsame⟩
  · rw [success_eq]; simp
  · unfold BackoffHelperClass.getNumTries
    rw [hv]; simp
  · exact ⟨_, _, List.getElem?_eq_getElem hlt, hsame.trans hf, by simp, by simp,
      by simp [UINT16_MODULUS]⟩
  · unfold BackoffHelperClass.success
    rw [hv, hv2]
  · unfold BackoffHelperClass.getNumTries
    rw [hv, hv2]

theorem first_call_on_corrupt_record_witness :
    (0 < BackoffHelper.backoffTableNumElem ∧
      BackoffHelper.backoffTableNumElem ≤ BackoffHelper.backoffTable.length ∧
      ((constMem 7 1 3 1234 BackoffHelper.retainedData).magic ≠ BACKOFFHELPER_RETAINED_MAGIC ∨
        (constMem 7 1 3 1234 BackoffHelper.retainedData).version ≠
          BACKOFFHELPER_RETAINED_VERSION)) ∧
    (BackoffHelper.getNumTries (constMem 7 1 3 1234)).1 = 0 ∧
    ∃ (v : Nat) (mem1 : RetainedMem), BackoffHelper.backoffTable[0]? = some v ∧
      BackoffHelper.getFailureSleepTimeSecs (constMem 7 1 3 1234) = some ((v : Int) * 60, mem1) ∧
      (mem1 BackoffHelper.retainedData).magic = BACKOFFHELPER_RETAINED_MAGIC ∧
      (mem1 BackoffHelper.retainedData).version = BACKOFFHELPER_RETAINED_VERSION ∧
      (mem1 BackoffHelper.retainedData).tries = 1 :=
  ⟨⟨by decide, by decide, by decide⟩,
    (first_call_on_corrupt_record BackoffHelper (constMem 7 1 3 1234) (by decide) (by decide)
      (by decide)).2.1.1,
    (first_call_on_corrupt_record BackoffHelper (constMem 7 1 3 1234) (by decide) (by decide)
      (by decide)).2.2.1⟩

/-- C8: for a valid record with counter `t` at address `p`, a newly constructed object over
`p` is bound to `p` with the default table; `getNumTries()` on it returns `t` and leaves the
memory as it was; its first failure report returns `standardBackoffTable[min t 5] * 60` and,
when `t < 65535`, leaves the counter at `t + 1`. -/
theorem counter_survives_reconstruction (p : Nat) (mem : RetainedMem)
    (hvalid : (mem p).isValid) :
    (BackoffHelperClass.new p).retainedData = p ∧
    (BackoffHelperClass.new p).getNumTries mem = ((mem p).tries, mem) ∧
    ∃ (v : Nat) (mem1 : RetainedMem), standardBackoffTable[min (mem p).tries 5]? = some v ∧
      (BackoffHelperClass.new p).getFailureSleepTimeSecs mem = some ((v : Int) * 60, mem1) ∧
      ((mem p).tries < 65535 → (mem1 p).tries = (mem p).tries + 1) := by
  have hidx : tableIndex (mem p).tries 6 = min (mem p).tries 5 :=
    tableIndex_eq_min (mem p).tries 6 (by decide) (by decide)
  have hlt : min (mem p).tries 5 < standardBackoffTable.length := by
    have : standardBackoffTable.length = 6 := rfl
    omega
  have hf := getFailureSleepTimeSecs_of_isValid (BackoffHelperClass.new p) mem hvalid
    standardBackoffTable[min (mem p).tries 5]
    (by
      show standardBackoffTable[tableIndex (mem p).tries 6]? = _
      rw [hidx]; exact List.getElem?_eq_getElem hlt)
  refine ⟨rfl, ?_, _, _, List.getElem?_eq_getElem hlt, hf, ?_⟩
  · unfold BackoffHelperClass.getNumTries
    rw [validate_of_isValid (BackoffHelperClass.new p) mem hvalid]
    rfl
  · intro ht
    show (Function.update mem p _ p).tries = _
    simp only [Function.update_same, UINT16_MODULUS]
    show ((mem p).tries + 1) % 65536 = _
    exact Nat.mod_eq_of_lt (by omega)

theorem counter_survives_reconstruction_witness :
    (validMem 1 0).isValid ∧
    (BackoffHelper.retainedData = 0 ∧
    BackoffHelper.getNumTries (validMem 1) = ((validMem 1 0).tries, validMem 1) ∧
    ∃ (v : Nat) (mem1 : RetainedMem),
      standardBackoffTable[min (validMem 1 0).tries 5]? = some v ∧
      BackoffHelper.getFailureSleepTimeSecs (validMem 1) = some ((v : Int) * 60, mem1) ∧
      ((validMem 1 0).tries < 65535 → (mem1 0).tries = (validMem 1 0).tries + 1)) :=
  ⟨by decide, counter_survives_reconstruction 0 (validMem 1) (by decide)⟩

/-- C9: for two objects bound to distinct records, a call on `a` leaves the object `b` and the
record of `b` as they were; and an arbitrary interleaving of calls on the two is the pair of the
two separate runs, so that the values returned on `b`, its final table and its final record
are those of the calls on `b` run alone (whenever the calls on `a` are defined). -/
theorem independent_counters (a b : BackoffHelperClass) (mem : RetainedMem)
    (ops : List (Target × Op)) (hdistinct : a.retainedData ≠ b.retainedData) :
    (∀ op ra rb a1 b1 mem1, runTwo a b mem [(Target.A, op)] = some (ra, rb, a1, b1, mem1) →
      b1 = b ∧ mem1 b.retainedData = mem b.retainedData) ∧
    runTwo a b mem ops =
      (run a mem (callsOn .A ops)).bind (fun x =>
        (run b mem (callsOn .B ops)).map (fun y =>
          (x.1, y.1, x.2.1, y.2.1,
            Function.update y.2.2 a.retainedData (x.2.2 a.retainedData)))) ∧
    (runTwo a b mem ops).map (fun z => (z.2.1, z.2.2.2.1, z.2.2.2.2 b.retainedData)) =
      (run a mem (callsOn .A ops)).bind (fun _ =>
        (run b mem (callsOn .B ops)).map (fun y => (y.1, y.2.1, y.2.2 b.retainedData))) := by
  refine ⟨?_, runTwo_eq ops a b mem hdistinct, ?_⟩
  · intro op ra rb a1 b1 mem1 h
    rw [runTwo] at h
    cases hc : call a mem op with
    | none => rw [hc] at h; exact absurd h (by simp)
    | some x =>
      obtain ⟨r, a2, mem2⟩ := x
      rw [hc] at h
      simp only [runTwo, Option.some.injEq, Prod.mk.injEq] at h
      obtain ⟨-, -, -, hb, hmem⟩ := h
      subst hb hmem
      exact ⟨rfl, (call_frame a mem op r a2 mem2 hc).2 _ (Ne.symm hdistinct)⟩
  · rw [runTwo_eq ops a b mem hdistinct]
    cases run a mem (callsOn .A ops) with
    | none => rfl
    | some x =>
      cases run b mem (callsOn .B ops) with
      | none => rfl
      | some y => simp [Function.update_noteq (Ne.symm hdistinct)]

theorem independent_counters_witness :
    BackoffHelper.retainedData ≠ test2.retainedData ∧
    (runTwo BackoffHelper test2 selfTestMem selfTestTwoCounters).map
        (fun z => (z.2.1, z.2.2.2.1, z.2.2.2.2 test2.retainedData)) =
      (run BackoffHelper selfTestMem (callsOn .A selfTestTwoCounters)).bind (fun _ =>
        (run test2 selfTestMem (callsOn .B selfTestTwoCounters)).map
          (fun y => (y.1, y.2.1, y.2.2 test2.retainedData))) :=
  ⟨by decide,
    (independent_counters BackoffHelper test2 selfTestMem selfTestTwoCounters (by decide)).2.2⟩

/-- C10: for every object, memory and table argument, `withTable` returns `*this` with the new
table and length, still bound to the same record, and leaves retained memory unchanged; after
it, on a valid record with counter `t` and for a new table of `m >= 1` elements, the next
failure report returns `newTable[min t (m - 1)] * 60`. -/
theorem withTable_changes_only_table (self : BackoffHelperClass) (mem : RetainedMem)
    (table : List Nat) (m : Nat) :
    call self mem (.withTable table m) = some (.self, self.withTable table m, mem) ∧
    (self.withTable table m).backoffTable = table ∧
    (self.withTable table m).backoffTableNumElem = m ∧
    (self.withTable table m).retainedData = self.retainedData ∧
    (0 < m → m ≤ table.length → m < SIZE_T_MODULUS → (mem self.retainedData).isValid →
      ∃ v : Nat, table[min (mem self.retainedData).tries (m - 1)]? = some v ∧
        ((self.withTable table m).getFailureSleepTimeSecs mem).map Prod.fst =
          some ((v : Int) * 60)) := by
  refine ⟨rfl, rfl, rfl, rfl, fun hm hlen hsz hvalid => ?_⟩
  have hidx := tableIndex_eq_min (mem self.retainedData).tries m hm hsz
  have hlt : min (mem self.retainedData).tries (m - 1) < table.length := by omega
  refine ⟨table[min (mem self.retainedData).tries (m - 1)], List.getElem?_eq_getElem hlt, ?_⟩
  rw [getFailureSleepTimeSecs_of_isValid (self.withTable table m) mem hvalid
    table[min (mem self.retainedData).tries (m - 1)]
    (by
      show table[tableIndex (mem self.retainedData).tries m]? = _
      rw [hidx]; exact List.getElem?_eq_getElem hlt)]
  rfl

theorem withTable_changes_only_table_witness :
    (0 < 3 ∧ 3 ≤ [10, 20, 60].length ∧ 3 < SIZE_T_MODULUS ∧
      (validMem 5 BackoffHelper.retainedData).isValid) ∧
    ∃ v : Nat, ([10, 20, 60] : List Nat)[min (validMem 5 BackoffHelper.retainedData).tries
        (3 - 1)]? = some v ∧
      ((BackoffHelper.withTable [10, 20, 60] 3).getFailureSleepTimeSecs (validMem 5)).map Prod.fst =
        some ((v : Int) * 60) :=
  ⟨⟨by decide, by decide, by decide, by decide⟩,
    (withTable_changes_only_table BackoffHelper (validMem 5) [10, 20, 60] 3).2.2.2.2 (by decide)
      (by decide) (by decide) (by decide)⟩

/-- C11: for every object, `withDefaultTable()` returns `*this` equal to a newly constructed
object over the same record: the table is `{5, 10, 15, 20, 30, 60}` with length 6, retained
memory is unchanged, and every sequence of calls made afterwards gives the same values, the same
final object and the same final memory as on the new object. -/
theorem withDefaultTable_eq_new (self : BackoffHelperClass) (mem : RetainedMem)
    (ops : List Op) :
    call self mem .withDefaultTable =
        some (.self, BackoffHelperClass.new self.retainedData, mem) ∧
      self.withDefaultTable.backoffTable = [5, 10, 15, 20, 30, 60] ∧
      self.withDefaultTable.backoffTableNumElem = 6 ∧
      self.withDefaultTable.retainedData = self.retainedData ∧
      run self.withDefaultTable mem ops = run (BackoffHelperClass.new self.retainedData) mem ops ∧
      run self mem (.withDefaultTable :: ops) =
        (run (BackoffHelperClass.new self.retainedData) mem ops).map
          (fun x => (Ret.self :: x.1, x.2)) := by
  refine ⟨rfl, rfl, rfl, rfl, rfl, ?_⟩
  rw [run_cons]
  rfl

/-- C12: on a valid record with counter `t`, `getNumTries()` returns `t` and leaves the whole
retained memory (so every field of the record) and the object (so the attached table) as they
were; and in any sequence of calls, the calls of `getNumTries()` can be removed without changing
the values returned by the other calls, the final object or the final memory. -/
theorem getNumTries_reads_only (self : BackoffHelperClass) (mem : RetainedMem)
    (ops : List Op) (hvalid : (mem self.retainedData).isValid) :
    self.getNumTries mem = ((mem self.retainedData).tries, mem) ∧
      call self mem .getNumTries =
        some (.uint16 (mem self.retainedData).tries, self, mem) ∧
      (run self mem ops).map (fun x => (x.1.filter (fun r => !r.isUint16), x.2)) =
        run self mem (withoutGetNumTries ops) := by
  refine ⟨?_, call_getNumTries_of_isValid self mem hvalid,
    run_withoutGetNumTries ops self mem hvalid⟩
  unfold BackoffHelperClass.getNumTries
  rw [validate_of_isValid self mem hvalid]

theorem getNumTries_reads_only_witness :
    (validMem 2 BackoffHelper.retainedData).isValid ∧
    (BackoffHelper.getNumTries (validMem 2) =
        ((validMem 2 BackoffHelper.retainedData).tries, validMem 2) ∧
      call BackoffHelper (validMem 2) .getNumTries =
        some (.uint16 (validMem 2 BackoffHelper.retainedData).tries, BackoffHelper,
          validMem 2) ∧
      (run BackoffHelper (validMem 2) selfTestStart).map
          (fun x => (x.1.filter (fun r => !r.isUint16), x.2)) =
        run BackoffHelper (validMem 2) (withoutGetNumTries selfTestStart)) :=
  ⟨by decide, getNumTries_reads_only BackoffHelper (validMem 2) selfTestStart (by decide)⟩

/-- C13: for a table of `m >= 1` elements and `n <= 65535`, `success()` followed by `n` failure
reports all return, and `getNumTries()` then returns `n`; every report from the `m`-th on
returns `table[m - 1] * 60` while the counter keeps growing. -/
theorem tries_counts_consecutive_failures (self : BackoffHelperClass) (mem : RetainedMem)
    (n : Nat) (hm : 0 < self.backoffTableNumElem)
    (hlen : self.backoffTableNumElem ≤ self.backoffTable.length)
    (hsz : self.backoffTableNumElem < SIZE_T_MODULUS) (hn : n ≤ 65535) :
    ∃ rets mem1,
      run self (self.success mem) (List.replicate n Op.getFailureSleepTimeSecs) =
        some (rets, self, mem1) ∧
      rets.length = n ∧
      (self.getNumTries mem1).1 = n ∧
      ∀ i, i < n → self.backoffTableNumElem ≤ i + 1 →
        ∃ v : Nat, self.backoffTable[self.backoffTableNumElem - 1]? = some v ∧
          rets[i]? = some (Ret.int ((v : Int) * 60)) := by
  obtain ⟨tbl, m, p⟩ := self
  simp only at hm hlen hsz ⊢
  obtain ⟨rets, hrun, hlenr, hget⟩ := run_failures tbl m p mem hm hlen hsz n
    ⟨BACKOFFHELPER_RETAINED_MAGIC, BACKOFFHELPER_RETAINED_VERSION,
      if (mem p).isValid then (mem p).reserved else 0, 0⟩
    (isValid_mk _ _) (by simp [UINT16_MODULUS])
  have hs := success_eq ⟨tbl, m, p⟩ mem
  simp only at hs
  have hg := getNumTries_update ⟨tbl, m, p⟩ mem
    ⟨BACKOFFHELPER_RETAINED_MAGIC, BACKOFFHELPER_RETAINED_VERSION,
      if (mem p).isValid then (mem p).reserved else 0, (0 + n) % UINT16_MODULUS⟩
    (isValid_mk _ _)
  simp only at hg
  refine ⟨rets, _, by rw [hs]; exact hrun, hlenr, ?_, ?_⟩
  · rw [hg]
    simp only [Nat.zero_add, UINT16_MODULUS]
    exact Nat.mod_eq_of_lt (by omega)
  · intro i hi hmi
    have hlt : m - 1 < tbl.length := by omega
    refine ⟨tbl[m - 1], List.getElem?_eq_getElem hlt, ?_⟩
    rw [hget i hi]
    simp only [Nat.zero_add, UINT16_MODULUS]
    rw [Nat.mod_eq_of_lt (by omega), Nat.min_eq_right (by omega),
      List.getElem?_eq_getElem hlt]
    rfl

theorem tries_counts_consecutive_failures_witness :
    (0 < BackoffHelper.backoffTableNumElem ∧
      BackoffHelper.backoffTableNumElem ≤ BackoffHelper.backoffTable.length ∧
      BackoffHelper.backoffTableNumElem < SIZE_T_MODULUS ∧ 9 ≤ 65535) ∧
    ∃ rets mem1,
      run BackoffHelper (BackoffHelper.success (constMem 0 0 0 0))
          (List.replicate 9 Op.getFailureSleepTimeSecs) =
        some (rets, BackoffHelper, mem1) ∧
      rets.length = 9 ∧
      (BackoffHelper.getNumTries mem1).1 = 9 ∧
      ∀ i, i < 9 → BackoffHelper.backoffTableNumElem ≤ i + 1 →
        ∃ v : Nat, BackoffHelper.backoffTable[BackoffHelper.backoffTableNumElem - 1]? =
            some v ∧
          rets[i]? = some (Ret.int ((v : Int) * 60)) :=
  ⟨⟨by decide, by decide, by decide, by decide⟩,
    tries_counts_consecutive_failures BackoffHelper (constMem 0 0 0 0) 9 (by decide)
      (by decide) (by decide) (by decide)⟩

/-- C14: for every record contents, `success()` always returns, calling it twice leaves the
same memory as calling it once, and the record it leaves is valid with counter 0. -/
theorem success_idempotent (self : BackoffHelperClass) (mem : RetainedMem) :
    self.success (self.success mem) = self.success mem ∧
      (self.success mem self.retainedData).isValid ∧
      (self.success mem self.retainedData).tries = 0 ∧
      call self mem .success = some (.void, self, self.success mem) ∧
      run self mem [.success, .success] = some ([.void, .void], self, self.success mem) := by
  have h2 : self.success (self.success mem) = self.success mem := by
    rw [success_eq self mem, success_update self mem _ (isValid_mk _ _)]
  refine ⟨h2, ?_, ?_, rfl, ?_⟩
  · rw [success_eq]; simpa using isValid_mk _ _
  · rw [success_eq]; simp
  · simp only [run, call, h2]

/-- C15: the code breaks the claim after 65536 failure reports. With the default table, which is
non-decreasing, and a valid record whose counter is 65535, two consecutive failure reports
return 3600 and then 300; and in a run of 65537 consecutive failure reports after `success()`
the 65536th returns 3600 and the 65537th returns 300. -/
theorem backoff_drops_after_wrap :
    standardBackoffTable.Pairwise (fun u w => u ≤ w) ∧
      (run BackoffHelper (validMem 65535)
          (List.replicate 2 Op.getFailureSleepTimeSecs)).map (fun x => x.1) =
        some [Ret.int 3600, Ret.int 300] ∧
      ¬ ((3600 : Int) ≤ 300) ∧
      ∃ rets mem1,
        run BackoffHelper (BackoffHelper.success (constMem 0 0 0 0))
            (List.replicate 65537 Op.getFailureSleepTimeSecs) =
          some (rets, BackoffHelper, mem1) ∧
        rets[65536 - 1]? = some (Ret.int 3600) ∧
        rets[65537 - 1]? = some (Ret.int 300) := by
  have hmem : validMem 65535 = Function.update (validMem 65535) 0
      ⟨BACKOFFHELPER_RETAINED_MAGIC, BACKOFFHELPER_RETAINED_VERSION, 0, 65535⟩ := by
    funext q
    by_cases hq : q = 0
    · subst hq; rfl
    · rw [Function.update_noteq hq]
  obtain ⟨rets, hrun, -, hget⟩ := run_failures standardBackoffTable 6 0 (constMem 0 0 0 0)
    (by decide) (by decide) (by decide) 65537
    ⟨BACKOFFHELPER_RETAINED_MAGIC, BACKOFFHELPER_RETAINED_VERSION,
      if (constMem 0 0 0 0 0).isValid then (constMem 0 0 0 0 0).reserved else 0, 0⟩
    (isValid_mk _ _) (by decide)
  have hs : BackoffHelper.success (constMem 0 0 0 0) = Function.update (constMem 0 0 0 0) 0
      ⟨BACKOFFHELPER_RETAINED_MAGIC, BACKOFFHELPER_RETAINED_VERSION,
        if (constMem 0 0 0 0 0).isValid then (constMem 0 0 0 0 0).reserved else 0, 0⟩ :=
    success_eq BackoffHelper (constMem 0 0 0 0)
  have h0 := hget 65535 (by omega)
  have h1 := hget 65536 (by omega)
  refine ⟨by decide, ?_, by decide, rets, _, by rw [hs]; exact hrun,
    by rw [h0]; simp [UINT16_MODULUS, standardBackoffTable],
    by rw [h1]; simp [UINT16_MODULUS, standardBackoffTable]⟩
  rw [hmem]
  simp [List.replicate, run_cons, run, BackoffHelper, builtInRetainedData,
    BackoffHelperClass.new, call_getFailureSleepTimeSecs_mk, isValid_mk, standardBackoffTable,
    tableIndex, UINT16_MODULUS, SIZE_T_MODULUS]

/-- C16 fails as stated: on a record with a wrong magic number, `withTable` and
`withDefaultTable` leave the record as it was (wrong magic, counter 1234), and a failure report
leaves the counter at 1, not 0. -/
theorem withTable_does_not_validate_counterexample :
    ¬ (constMem 7 0 3 1234 BackoffHelper.retainedData).isValid ∧
      (call BackoffHelper (constMem 7 0 3 1234) (.withTable [10, 20, 60] 3)).map
          (fun x => x.2.2 BackoffHelper.retainedData) = some ⟨7, 0, 3, 1234⟩ ∧
      (call BackoffHelper (constMem 7 0 3 1234) .withDefaultTable).map
          (fun x => x.2.2 BackoffHelper.retainedData) = some ⟨7, 0, 3, 1234⟩ ∧
      (call BackoffHelper (constMem 7 0 3 1234) .getFailureSleepTimeSecs).map
          (fun x => x.2.2 BackoffHelper.retainedData) =
        some ⟨BACKOFFHELPER_RETAINED_MAGIC, BACKOFFHELPER_RETAINED_VERSION, 0, 1⟩ := by
  refine ⟨by decide, rfl, rfl, ?_⟩
  have hbad : ¬ (constMem 7 0 3 1234 BackoffHelper.retainedData).isValid := by decide
  obtain ⟨v, hv⟩ := getFailureSleepTimeSecs_isSome BackoffHelper (constMem 7 0 3 1234)
    (by decide) (by decide) (by decide)
  simp only [call, hv, Option.map_some', Function.update_same,
    validate_of_not_isValid BackoffHelper _ hbad, UINT16_MODULUS]

/-- C16 (amended): validation runs on `success`, `getNumTries`, `getFailureSleepTimeSecs` and
`validate`, not on `withTable` and `withDefaultTable`. For every object (whatever its table)
and every record contents: after `success`, `getNumTries` or `validate` the record is valid,
with counter 0 if it was not valid before; `withTable` and `withDefaultTable` leave retained
memory as it was; and when the table has at least one element, a failure report returns and
leaves a valid record, with counter 1 if it was not valid before. -/
theorem validation_runs_on_record_calls (self : BackoffHelperClass) (mem : RetainedMem) :
    ((self.success mem self.retainedData).isValid ∧
      (¬ (mem self.retainedData).isValid → (self.success mem self.retainedData).tries = 0)) ∧
    (((self.getNumTries mem).2 self.retainedData).isValid ∧
      (¬ (mem self.retainedData).isValid →
        ((self.getNumTries mem).2 self.retainedData).tries = 0)) ∧
    ((self.validate mem self.retainedData).isValid ∧
      (¬ (mem self.retainedData).isValid → (self.validate mem self.retainedData).tries = 0)) ∧
    (∀ (table : List Nat) (n : Nat),
      call self mem (.withTable table n) = some (.self, self.withTable table n, mem)) ∧
    call self mem .withDefaultTable = some (.self, self.withDefaultTable, mem) ∧
    (0 < self.backoffTableNumElem → self.backoffTableNumElem ≤ self.backoffTable.length →
      self.backoffTableNumElem < SIZE_T_MODULUS →
      ∃ (v : Int) (mem1 : RetainedMem), self.getFailureSleepTimeSecs mem = some (v, mem1) ∧
        (mem1 self.retainedData).isValid ∧
        (¬ (mem self.retainedData).isValid → (mem1 self.retainedData).tries = 1)) := by
  refine ⟨⟨?_, fun _ => ?_⟩, ⟨validate_isValid self mem, validate_tries_of_not_isValid self mem⟩,
    ⟨validate_isValid self mem, validate_tries_of_not_isValid self mem⟩, fun _ _ => rfl, rfl,
    fun hm hlen hsz => ?_⟩
  · rw [success_eq]; simpa using isValid_mk _ _
  · rw [success_eq]; simp
  · obtain ⟨v, hv⟩ := getFailureSleepTimeSecs_isSome self mem hm hlen hsz
    refine ⟨_, _, hv, ?_, fun hbad => ?_⟩
    · simpa using validate_isValid self mem
    · simp only [Function.update_same, validate_tries_of_not_isValid self mem hbad,
        UINT16_MODULUS]

theorem validation_runs_on_record_calls_witness :
    (¬ (constMem 7 0 3 1234 (BackoffHelper.withTable [] 0).retainedData).isValid ∧
      ((BackoffHelper.withTable [] 0).success (constMem 7 0 3 1234)
        (BackoffHelper.withTable [] 0).retainedData).tries = 0) ∧
    (0 < BackoffHelper.backoffTableNumElem ∧
      BackoffHelper.backoffTableNumElem ≤ BackoffHelper.backoffTable.length ∧
      BackoffHelper.backoffTableNumElem < SIZE_T_MODULUS) ∧
    ∃ (v : Int) (mem1 : RetainedMem),
      BackoffHelper.getFailureSleepTimeSecs (constMem 7 0 3 1234) = some (v, mem1) ∧
      (mem1 BackoffHelper.retainedData).isValid ∧
      (¬ (constMem 7 0 3 1234 BackoffHelper.retainedData).isValid →
        (mem1 BackoffHelper.retainedData).tries = 1) :=
  ⟨⟨by decide,
      (validation_runs_on_record_calls (BackoffHelper.withTable [] 0)
        (constMem 7 0 3 1234)).1.2 (by decide)⟩,
    ⟨by decide, by decide, by decide⟩,
    (validation_runs_on_record_calls BackoffHelper (constMem 7 0 3 1234)).2.2.2.2.2 (by decide)
      (by decide) (by decide)⟩

/-- C18: for a table of `m >= 1` elements that are `uint8_t` values and every memory contents,
the index read by the failure report is less than `m`, the call returns 60 times one of the
first `m` elements of the table, and that value is a multiple of 60 between 0 and 15300, below
the largest `int`. -/
theorem failure_lookup_in_bounds (self : BackoffHelperClass) (mem : RetainedMem)
    (hm : 0 < self.backoffTableNumElem)
    (hlen : self.backoffTableNumElem ≤ self.backoffTable.length)
    (hsz : self.backoffTableNumElem < SIZE_T_MODULUS)
    (hu8 : ∀ x ∈ self.backoffTable, x < 256) :
    tableIndex (self.validate mem self.retainedData).tries self.backoffTableNumElem <
        self.backoffTableNumElem ∧
      ∃ (v : Nat) (mem1 : RetainedMem),
        v ∈ self.backoffTable.take self.backoffTableNumElem ∧
        self.getFailureSleepTimeSecs mem = some ((v : Int) * 60, mem1) ∧
        (0 : Int) ≤ (v : Int) * 60 ∧ (v : Int) * 60 ≤ 15300 ∧ (v : Int) * 60 < 2 ^ 31 ∧
        (60 : Int) ∣ (v : Int) * 60 := by
  have hidx := tableIndex_eq_min (self.validate mem self.retainedData).tries _ hm hsz
  have hlt : tableIndex (self.validate mem self.retainedData).tries self.backoffTableNumElem <
      self.backoffTableNumElem := by rw [hidx]; omega
  obtain ⟨v, hget⟩ : ∃ v, self.backoffTable[tableIndex
      (self.validate mem self.retainedData).tries self.backoffTableNumElem]? = some v :=
    ⟨_, List.getElem?_eq_getElem (by omega)⟩
  have hv : v < 256 := hu8 v (List.getElem?_mem hget)
  have hmem : v ∈ self.backoffTable.take self.backoffTableNumElem :=
    List.getElem?_mem ((List.getElem?_take_of_lt hlt).trans hget)
  have hf : self.getFailureSleepTimeSecs mem = some ((v : Int) * 60,
      Function.update (self.validate mem) self.retainedData
        { self.validate mem self.retainedData with
          tries := ((self.validate mem self.retainedData).tries + 1) % UINT16_MODULUS }) := by
    unfold BackoffHelperClass.getFailureSleepTimeSecs
    simp only [hget]
  exact ⟨hlt, v, _, hmem, hf, by omega, by omega, by omega, Dvd.intro_left _ rfl⟩

theorem failure_lookup_in_bounds_witness :
    (0 < BackoffHelper.backoffTableNumElem ∧
      BackoffHelper.backoffTableNumElem ≤ BackoffHelper.backoffTable.length ∧
      BackoffHelper.backoffTableNumElem < SIZE_T_MODULUS ∧
      ∀ x ∈ BackoffHelper.backoffTable, x < 256) ∧
    (tableIndex (BackoffHelper.validate (constMem 1 2 3 40000)
          BackoffHelper.retainedData).tries BackoffHelper.backoffTableNumElem <
        BackoffHelper.backoffTableNumElem ∧
      ∃ (v : Nat) (mem1 : RetainedMem),
        v ∈ BackoffHelper.backoffTable.take BackoffHelper.backoffTableNumElem ∧
        BackoffHelper.getFailureSleepTimeSecs (constMem 1 2 3 40000) =
          some ((v : Int) * 60, mem1) ∧
        (0 : Int) ≤ (v : Int) * 60 ∧ (v : Int) * 60 ≤ 15300 ∧ (v : Int) * 60 < 2 ^ 31 ∧
        (60 : Int) ∣ (v : Int) * 60) :=
  ⟨⟨by decide, by decide, by decide, by decide⟩,
    failure_lookup_in_bounds BackoffHelper (constMem 1 2 3 40000) (by decide) (by decide)
      (by decide) (by decide)⟩

/-- C19: `withTable` with length 0 returns normally with the table length set to 0; then, for
every memory contents, the test `tries < backoffTableNumElem` is false, the index read is
`backoffTableNumElem - 1` in `size_t` arithmetic, that is the largest `size_t` value, which is
outside the empty table, and the failure report has no defined value. -/
theorem empty_table_lookup_out_of_bounds (self : BackoffHelperClass) (mem : RetainedMem) :
    call self mem (.withTable [] 0) = some (.self, self.withTable [] 0, mem) ∧
      (self.withTable [] 0).backoffTableNumElem = 0 ∧
      (∀ tries : Nat, ¬ tries < (self.withTable [] 0).backoffTableNumElem) ∧
      (∀ tries : Nat, tableIndex tries (self.withTable [] 0).backoffTableNumElem =
        SIZE_T_MODULUS - 1) ∧
      ¬ SIZE_T_MODULUS - 1 < (self.withTable [] 0).backoffTable.length ∧
      (∀ mem1 : RetainedMem, (self.withTable [] 0).getFailureSleepTimeSecs mem1 = none) ∧
      ∀ mem1 : RetainedMem, call (self.withTable [] 0) mem1 .getFailureSleepTimeSecs = none := by
  have hf : ∀ mem1 : RetainedMem,
      (self.withTable [] 0).getFailureSleepTimeSecs mem1 = none := by
    intro mem1
    unfold BackoffHelperClass.getFailureSleepTimeSecs
    simp [BackoffHelperClass.withTable]
  refine ⟨rfl, rfl, fun t => Nat.not_lt_zero t, fun t => ?_, Nat.not_lt_zero _, hf,
    fun mem1 => ?_⟩
  · simp [tableIndex, BackoffHelperClass.withTable, SIZE_T_MODULUS]
  · simp only [call, hf mem1]

end BackoffHelperRK
